import Mathlib

/-!
Verification development for the client-side voice session engine
(audio pipeline, voice activity detector, transport client, session
orchestrator).  Each service is shallowly embedded as pure Lean
definitions translated from the corresponding source files; theorems
below settle the behavioural claims about those definitions.

Conventions: JavaScript numbers are modelled as exact rationals, times
(`Date.now()` values, millisecond durations) as integers, byte buffers
as lists of naturals.  Floating-point arithmetic is modelled by exact
rational arithmetic; every value a claim depends on (sample scaling by
powers of two, millisecond comparisons on integers) is computed exactly
by the original code as well, so the model is faithful where it matters.
-/

namespace AudioPipeline

/-- Truncation toward zero on rationals.  This models the implicit
JavaScript `ToInt16` conversion performed when a number is stored into
an `Int16Array` element: the fractional part is discarded toward zero.
All values stored by the embedded code are inside the 16-bit range, so
the wrap-around step of `ToInt16` never fires and is omitted. -/
def truncQ (q : ℚ) : Int := if q < 0 then -⌊-q⌋ else ⌊q⌋

/-- One sample of `pcm16ToFloat32` from `js/audioService.js`:
`float32[i] = pcm16Array[i] / 0x8000`. -/
def pcm16ToFloat32 (v : Int) : ℚ := (v : ℚ) / 32768

/-- One sample of `float32ToPCM16` from `js/audioService.js`:
`sample = Math.max(-1, Math.min(1, x)); pcm16[i] = sample < 0 ? sample * 0x8000 : sample * 0x7FFF`.
The same conversion appears as `float32ToInt16` in the TypeScript
`AudioService` and in the `AudioCaptureProcessor` worklet. -/
def float32ToPCM16 (x : ℚ) : Int :=
  let s := max (-1) (min 1 x)
  if s < 0 then truncQ (s * 32768) else truncQ (s * 32767)

/-- PCM16 → float → PCM16 round trip of a single sample. -/
def roundTrip (v : Int) : Int := float32ToPCM16 (pcm16ToFloat32 v)

lemma truncQ_intCast (v : Int) : truncQ (v : ℚ) = v := by
  unfold truncQ
  by_cases h : (v : ℚ) < 0
  · rw [if_pos h, ← Int.cast_neg, Int.floor_intCast]
    ring
  · rw [if_neg h, Int.floor_intCast]

lemma clamp_eq_self (x : ℚ) (h1 : -1 ≤ x) (h2 : x ≤ 1) :
    max (-1) (min 1 x) = x := by
  rw [min_eq_right h2, max_eq_right h1]

lemma clamp_sample (v : Int) (hlo : -32768 ≤ v) (hhi : v ≤ 32767) :
    max (-1) (min 1 ((v : ℚ) / 32768)) = (v : ℚ) / 32768 := by
  have h32 : (0 : ℚ) < 32768 := by norm_num
  have hvq1 : (v : ℚ) ≤ 32768 := by exact_mod_cast le_trans hhi (by norm_num)
  have hvq2 : (-32768 : ℚ) ≤ (v : ℚ) := by exact_mod_cast hlo
  refine clamp_eq_self _ ?_ ?_
  · rw [le_div_iff₀ h32]; linarith
  · rw [div_le_one h32]; linarith

lemma roundTrip_nonpos (v : Int) (hlo : -32768 ≤ v) (hhi : v ≤ 0) :
    roundTrip v = v := by
  simp only [roundTrip, float32ToPCM16, pcm16ToFloat32]
  rw [clamp_sample v hlo (le_trans hhi (by norm_num))]
  rcases lt_or_eq_of_le hhi with hv | hv
  · have hneg : (v : ℚ) / 32768 < 0 := by
      apply div_neg_of_neg_of_pos _ (by norm_num)
      exact_mod_cast hv
    rw [if_pos hneg, div_mul_cancel₀ _ (by norm_num : (32768 : ℚ) ≠ 0)]
    exact truncQ_intCast v
  · subst hv
    norm_num [truncQ]

lemma roundTrip_pos (v : Int) (h1 : 1 ≤ v) (hhi : v ≤ 32767) :
    roundTrip v = v - 1 := by
  simp only [roundTrip, float32ToPCM16, pcm16ToFloat32]
  rw [clamp_sample v (le_trans (by norm_num) h1) hhi]
  have h32 : (0 : ℚ) < 32768 := by norm_num
  have hvq : (1 : ℚ) ≤ (v : ℚ) := by exact_mod_cast h1
  have hvq2 : (v : ℚ) ≤ 32767 := by exact_mod_cast hhi
  have hge : (0 : ℚ) ≤ (v : ℚ) / 32768 * 32767 := by positivity
  rw [if_neg (by linarith), truncQ, if_neg (by linarith)]
  rw [Int.floor_eq_iff]
  constructor
  · push_cast
    rw [div_mul_eq_mul_div, le_div_iff₀ h32]
    linarith
  · push_cast
    rw [div_mul_eq_mul_div, div_lt_iff₀ h32]
    linarith

/-- C3 (counterexample): the PCM16 → float → PCM16 round trip does NOT
recover every sample other than the -32768 rail: the sample 1 comes back
as 0 (positives are scaled by 32767/32768 and then truncated), and 1 is
not the excepted -32768 rail value. -/
theorem pcm_roundtrip_claim_counterexample :
    roundTrip 1 = 0 ∧ (0 : Int) ≠ 1 ∧ (1 : Int) ≠ -32768 := by
  refine ⟨?_, by norm_num, by norm_num⟩
  have := roundTrip_pos 1 (by norm_num) (by norm_num)
  simpa using this

/-- C3 (amended): the round trip is the identity on every non-positive
16-bit sample (including the -32768 rail, which survives exactly), while
every strictly positive sample v comes back as v - 1, because positive
values are scaled by 32767 instead of 32768 and the result is truncated
toward zero. -/
theorem pcm_roundtrip_amended (v : Int) (hlo : -32768 ≤ v) (hhi : v ≤ 32767) :
    roundTrip v = if 0 < v then v - 1 else v := by
  by_cases hv : 0 < v
  · rw [if_pos hv]
    exact roundTrip_pos v (by omega) hhi
  · rw [if_neg hv]
    exact roundTrip_nonpos v hlo (by omega)

/-- Witness for `pcm_roundtrip_amended` at the concrete samples -5 and 7. -/
theorem pcm_roundtrip_amended_witness :
    roundTrip (-5) = -5 ∧ roundTrip 7 = 6 := by
  constructor
  · have h := pcm_roundtrip_amended (-5) (by norm_num) (by norm_num)
    simpa using h
  · have h := pcm_roundtrip_amended 7 (by norm_num) (by norm_num)
    simpa using h

end AudioPipeline

namespace Vad

/-- State of `VADService` from `js/vadService.js` (constructor fields).
The `stats.avgLevel`/`stats.maxLevel` running statistics are carried for
completeness; they feed no branch of the service.  The float constants
0.9/0.1 of the moving average are modelled as exact rationals. -/
structure VADState where
  threshold : ℚ
  silenceTimeout : Int
  isSpeaking : Bool
  silenceStartTime : Option Int
  speechStartTime : Option Int
  debounceDelay : Int
  consecutiveSpeech : Nat
  consecutiveSilence : Nat
  requiredConsecutive : Nat
  speechCount : Nat
  totalSpeechTime : Int
  avgLevel : ℚ
  maxLevel : ℚ
  levelHistory : List ℚ
  historySize : Nat
deriving Repr, DecidableEq

/-- Events observable from the VAD callbacks.  The time argument of
`speechStart`/`speechEnd` is instrumentation recording the `Date.now()`
value at which the callback fired; the `durationMs` argument of
`speechEnd` is the payload actually passed by the code. -/
inductive VadEvent where
  | speechStart (t : Int)
  | speechEnd (t : Int) (durationMs : Int)
  | voiceActivity (level : ℚ) (speaking : Bool)
deriving Repr, DecidableEq

/-- `VADService` as constructed with the defaults of `js/constants.js`:
`VAD_THRESHOLD = 0.02`, `SILENCE_TIMEOUT = 1500`, debounce 100 ms,
`requiredConsecutive = 3`, history size 5. -/
def initVAD : VADState :=
  { threshold := 1/50, silenceTimeout := 1500, isSpeaking := false,
    silenceStartTime := none, speechStartTime := none, debounceDelay := 100,
    consecutiveSpeech := 0, consecutiveSilence := 0, requiredConsecutive := 3,
    speechCount := 0, totalSpeechTime := 0, avgLevel := 0, maxLevel := 0,
    levelHistory := [], historySize := 5 }

/-- `levelHistory.push(level); if (length > historySize) shift()`. -/
def pushHistory (s : VADState) (level : ℚ) : List ℚ :=
  let h := s.levelHistory ++ [level]
  if h.length > s.historySize then h.tail else h

/-- The smoothed level a call of `processAudioLevel(level)` computes:
mean of the rolling history after pushing the new sample. -/
def smoothedOf (s : VADState) (level : ℚ) : ℚ :=
  ((pushHistory s level).foldl (fun a b => a + b) 0) / ((pushHistory s level).length : ℚ)

/-- `updateStats(level)` from `js/vadService.js` (called on the smoothed level). -/
def updateStats (s : VADState) (level : ℚ) : VADState :=
  let s1 := { s with avgLevel := s.avgLevel * (9/10) + level * (1/10) }
  if level > s1.maxLevel then { s1 with maxLevel := level } else s1

/-- `startSpeaking()` from `js/vadService.js`. -/
def startSpeaking (now : Int) (s : VADState) : VADState × List VadEvent :=
  if s.isSpeaking then (s, [])
  else
    ({ s with isSpeaking := true, speechStartTime := some now,
              silenceStartTime := none, speechCount := s.speechCount + 1 },
     [.speechStart now])

/-- `endSpeaking()` from `js/vadService.js`: the reported duration is
`Date.now() - speechStartTime` evaluated at the moment the silence
timeout is exceeded. -/
def endSpeaking (now : Int) (s : VADState) : VADState × List VadEvent :=
  if s.isSpeaking then
    ({ s with isSpeaking := false,
              totalSpeechTime := s.totalSpeechTime + (now - s.speechStartTime.getD 0),
              speechStartTime := none, silenceStartTime := none },
     [.speechEnd now (now - s.speechStartTime.getD 0)])
  else (s, [])

/-- `handleVoiceDetected(level)` from `js/vadService.js`. -/
def handleVoiceDetected (now : Int) (s : VADState) : VADState × List VadEvent :=
  let s1 := { s with consecutiveSilence := 0,
                     consecutiveSpeech := s.consecutiveSpeech + 1 }
  let r :=
    if ¬ s1.isSpeaking ∧ s1.consecutiveSpeech ≥ s1.requiredConsecutive then
      startSpeaking now s1
    else (s1, [])
  if r.1.isSpeaking then ({ r.1 with silenceStartTime := none }, r.2) else r

/-- `handleSilenceDetected()` from `js/vadService.js`: records the start
of the silence run on its first silent sample, then ends the episode
once `now - silenceStartTime >= silenceTimeout`. -/
def handleSilenceDetected (now : Int) (s : VADState) : VADState × List VadEvent :=
  let s1 := { s with consecutiveSpeech := 0,
                     consecutiveSilence := s.consecutiveSilence + 1 }
  if s1.isSpeaking then
    let s2 := if s1.silenceStartTime = none
              then { s1 with silenceStartTime := some now } else s1
    if now - s2.silenceStartTime.getD 0 ≥ s2.silenceTimeout then endSpeaking now s2
    else (s2, [])
  else (s1, [])

/-- `processAudioLevel(level)` from `js/vadService.js`, with the call
time made explicit (the code reads `Date.now()`): push the sample into
the rolling history, smooth, update stats, branch on the threshold, and
finally report voice activity. -/
def processAudioLevel (now : Int) (level : ℚ) (s : VADState) : VADState × List VadEvent :=
  let sm := smoothedOf s level
  let s1 := updateStats { s with levelHistory := pushHistory s level } sm
  let r := if sm > s1.threshold then handleVoiceDetected now s1
           else handleSilenceDetected now s1
  (r.1, r.2 ++ [.voiceActivity sm r.1.isSpeaking])

/-- State after feeding a timed loudness trace through `processAudioLevel`. -/
def vadStateAfter (s : VADState) : List (Int × ℚ) → VADState
  | [] => s
  | x :: rest => vadStateAfter (processAudioLevel x.1 x.2 s).1 rest

/-- Events emitted while feeding a timed loudness trace through
`processAudioLevel`, in order. -/
def vadEventsOf (s : VADState) : List (Int × ℚ) → List VadEvent
  | [] => []
  | x :: rest =>
      (processAudioLevel x.1 x.2 s).2 ++ vadEventsOf (processAudioLevel x.1 x.2 s).1 rest

/-- A sample is counted as voice iff the smoothed level strictly exceeds
the threshold, exactly the branch condition of `processAudioLevel`. -/
def stepActive (s : VADState) (x : Int × ℚ) : Prop := smoothedOf s x.2 > s.threshold

instance (s : VADState) (x : Int × ℚ) : Decidable (stepActive s x) := by
  unfold stepActive; infer_instance

/-- Every sample of the list is voice-active, each judged against the
state reached by processing its predecessors. -/
def chainActive (s : VADState) : List (Int × ℚ) → Prop
  | [] => True
  | x :: rest => stepActive s x ∧ chainActive (processAudioLevel x.1 x.2 s).1 rest

/-- Every sample of the list is silent, each judged against the state
reached by processing its predecessors. -/
def chainSilent (s : VADState) : List (Int × ℚ) → Prop
  | [] => True
  | x :: rest => ¬ stepActive s x ∧ chainSilent (processAudioLevel x.1 x.2 s).1 rest

lemma vadStateAfter_append (s : VADState) (l1 l2 : List (Int × ℚ)) :
    vadStateAfter s (l1 ++ l2) = vadStateAfter (vadStateAfter s l1) l2 := by
  induction l1 generalizing s with
  | nil => rfl
  | cons x rest ih => simp [vadStateAfter, ih]

lemma vadStateAfter_snoc (s : VADState) (l : List (Int × ℚ)) (x : Int × ℚ) :
    vadStateAfter s (l ++ [x]) = (processAudioLevel x.1 x.2 (vadStateAfter s l)).1 := by
  rw [vadStateAfter_append]; rfl

lemma vadEventsOf_append (s : VADState) (l1 l2 : List (Int × ℚ)) :
    vadEventsOf s (l1 ++ l2) = vadEventsOf s l1 ++ vadEventsOf (vadStateAfter s l1) l2 := by
  induction l1 generalizing s with
  | nil => rfl
  | cons x rest ih => simp [vadEventsOf, vadStateAfter, ih]

lemma chainActive_append (s : VADState) (l1 l2 : List (Int × ℚ)) :
    chainActive s (l1 ++ l2) ↔ chainActive s l1 ∧ chainActive (vadStateAfter s l1) l2 := by
  induction l1 generalizing s with
  | nil => simp [chainActive, vadStateAfter]
  | cons x rest ih => simp [chainActive, vadStateAfter, ih, and_assoc]

lemma chainSilent_append (s : VADState) (l1 l2 : List (Int × ℚ)) :
    chainSilent s (l1 ++ l2) ↔ chainSilent s l1 ∧ chainSilent (vadStateAfter s l1) l2 := by
  induction l1 generalizing s with
  | nil => simp [chainSilent, vadStateAfter]
  | cons x rest ih => simp [chainSilent, vadStateAfter, ih, and_assoc]

lemma updateStats_eq (s : VADState) (l : ℚ) :
    updateStats s l = { s with avgLevel := s.avgLevel * (9/10) + l * (1/10),
                               maxLevel := max s.maxLevel l } := by
  simp only [updateStats]
  split_ifs with h
  · simp at h
    rw [max_eq_right h.le]
  · simp at h
    rw [max_eq_left h]

/-- The history push followed by the statistics update performed at the
top of `processAudioLevel`, before the threshold branch. -/
def statsStep (s : VADState) (x : Int × ℚ) : VADState :=
  updateStats { s with levelHistory := pushHistory s x.2 } (smoothedOf s x.2)

lemma statsStep_eq (s : VADState) (x : Int × ℚ) :
    statsStep s x =
      { s with levelHistory := pushHistory s x.2,
               avgLevel := s.avgLevel * (9/10) + smoothedOf s x.2 * (1/10),
               maxLevel := max s.maxLevel (smoothedOf s x.2) } := by
  rw [statsStep, updateStats_eq]

lemma processAudioLevel_eq (now : Int) (level : ℚ) (s : VADState) :
    processAudioLevel now level s =
      (if smoothedOf s level > s.threshold
       then ((handleVoiceDetected now (statsStep s (now, level))).1,
             (handleVoiceDetected now (statsStep s (now, level))).2 ++
               [.voiceActivity (smoothedOf s level)
                 (handleVoiceDetected now (statsStep s (now, level))).1.isSpeaking])
       else ((handleSilenceDetected now (statsStep s (now, level))).1,
             (handleSilenceDetected now (statsStep s (now, level))).2 ++
               [.voiceActivity (smoothedOf s level)
                 (handleSilenceDetected now (statsStep s (now, level))).1.isSpeaking])) := by
  simp only [processAudioLevel, statsStep, updateStats_eq]
  split_ifs <;> simp_all

lemma handleVoiceDetected_eq (now : Int) (t : VADState) :
    handleVoiceDetected now t =
      if t.isSpeaking then
        ({ t with consecutiveSilence := 0, consecutiveSpeech := t.consecutiveSpeech + 1,
                  silenceStartTime := none }, [])
      else if t.consecutiveSpeech + 1 ≥ t.requiredConsecutive then
        ({ t with consecutiveSilence := 0, consecutiveSpeech := t.consecutiveSpeech + 1,
                  isSpeaking := true, speechStartTime := some now, silenceStartTime := none,
                  speechCount := t.speechCount + 1 }, [.speechStart now])
      else
        ({ t with consecutiveSilence := 0, consecutiveSpeech := t.consecutiveSpeech + 1 }, []) := by
  simp only [handleVoiceDetected, startSpeaking]
  split_ifs <;> simp_all

lemma handleSilenceDetected_eq (now : Int) (t : VADState) :
    handleSilenceDetected now t =
      if t.isSpeaking then
        if now - t.silenceStartTime.getD now ≥ t.silenceTimeout then
          ({ t with consecutiveSpeech := 0, consecutiveSilence := t.consecutiveSilence + 1,
                    isSpeaking := false,
                    totalSpeechTime := t.totalSpeechTime + (now - t.speechStartTime.getD 0),
                    speechStartTime := none, silenceStartTime := none },
           [.speechEnd now (now - t.speechStartTime.getD 0)])
        else
          ({ t with consecutiveSpeech := 0, consecutiveSilence := t.consecutiveSilence + 1,
                    silenceStartTime := some (t.silenceStartTime.getD now) }, [])
      else
        ({ t with consecutiveSpeech := 0, consecutiveSilence := t.consecutiveSilence + 1 }, []) := by
  simp only [handleSilenceDetected, endSpeaking]
  rcases hss : t.silenceStartTime with _ | a <;> split_ifs <;> simp_all <;> omega

lemma processAudioLevel_config (now : Int) (level : ℚ) (s : VADState) :
    (processAudioLevel now level s).1.threshold = s.threshold
  ∧ (processAudioLevel now level s).1.silenceTimeout = s.silenceTimeout
  ∧ (processAudioLevel now level s).1.requiredConsecutive = s.requiredConsecutive
  ∧ (processAudioLevel now level s).1.historySize = s.historySize := by
  simp only [processAudioLevel_eq, handleVoiceDetected_eq, handleSilenceDetected_eq,
    statsStep_eq]
  split_ifs <;> simp_all

lemma vadStateAfter_config (s : VADState) (l : List (Int × ℚ)) :
    (vadStateAfter s l).threshold = s.threshold
  ∧ (vadStateAfter s l).silenceTimeout = s.silenceTimeout
  ∧ (vadStateAfter s l).requiredConsecutive = s.requiredConsecutive
  ∧ (vadStateAfter s l).historySize = s.historySize := by
  induction l generalizing s with
  | nil => simp [vadStateAfter]
  | cons x rest ih =>
      have h := processAudioLevel_config x.1 x.2 s
      have h2 := ih (processAudioLevel x.1 x.2 s).1
      simp only [vadStateAfter]
      exact ⟨h2.1.trans h.1, (h2.2.1).trans h.2.1,
        (h2.2.2.1).trans h.2.2.1, (h2.2.2.2).trans h.2.2.2⟩

lemma consec_active {now : Int} {level : ℚ} {s : VADState}
    (h : smoothedOf s level > s.threshold) :
    (processAudioLevel now level s).1.consecutiveSpeech = s.consecutiveSpeech + 1 := by
  simp only [processAudioLevel_eq, if_pos h, handleVoiceDetected_eq, statsStep_eq]
  split_ifs <;> simp_all

lemma consec_silent {now : Int} {level : ℚ} {s : VADState}
    (h : ¬ smoothedOf s level > s.threshold) :
    (processAudioLevel now level s).1.consecutiveSpeech = 0 := by
  simp only [processAudioLevel_eq, if_neg h, handleSilenceDetected_eq, statsStep_eq]
  split_ifs <;> simp_all

lemma speaking_of_active {now : Int} {level : ℚ} {s : VADState}
    (h : smoothedOf s level > s.threshold) (hs : s.isSpeaking = true) :
    (processAudioLevel now level s).1.isSpeaking = true := by
  simp only [processAudioLevel_eq, if_pos h, handleVoiceDetected_eq, statsStep_eq]
  split_ifs <;> simp_all

lemma notSpeaking_of_silent {now : Int} {level : ℚ} {s : VADState}
    (h : ¬ smoothedOf s level > s.threshold) (hs : s.isSpeaking = false) :
    (processAudioLevel now level s).1.isSpeaking = false := by
  simp only [processAudioLevel_eq, if_neg h, handleSilenceDetected_eq, statsStep_eq]
  split_ifs <;> simp_all

lemma speaking_up_char {now : Int} {level : ℚ} {s : VADState}
    (hs : s.isSpeaking = false)
    (hp : (processAudioLevel now level s).1.isSpeaking = true) :
    smoothedOf s level > s.threshold
  ∧ s.requiredConsecutive ≤ s.consecutiveSpeech + 1 := by
  by_cases h : smoothedOf s level > s.threshold
  · refine ⟨h, ?_⟩
    by_contra hreq
    simp only [processAudioLevel_eq, if_pos h, handleVoiceDetected_eq, statsStep_eq] at hp
    split_ifs at hp <;> simp_all
  · exact absurd (@notSpeaking_of_silent now level s h hs) (by simp [hp])

lemma speaking_down_char {now : Int} {level : ℚ} {s : VADState}
    (hs : s.isSpeaking = true)
    (hp : (processAudioLevel now level s).1.isSpeaking = false) :
    ¬ smoothedOf s level > s.threshold
  ∧ now - s.silenceStartTime.getD now ≥ s.silenceTimeout := by
  by_cases h : smoothedOf s level > s.threshold
  · exact absurd (@speaking_of_active now level s h hs) (by simp [hp])
  · refine ⟨h, ?_⟩
    by_contra hto
    simp only [processAudioLevel_eq, if_neg h, handleSilenceDetected_eq, statsStep_eq] at hp
    split_ifs at hp <;> simp_all

lemma silenceStart_of_active {now : Int} {level : ℚ} {s : VADState}
    (h : smoothedOf s level > s.threshold)
    (hp : (processAudioLevel now level s).1.isSpeaking = true) :
    (processAudioLevel now level s).1.silenceStartTime = none := by
  simp only [processAudioLevel_eq, if_pos h, handleVoiceDetected_eq, statsStep_eq] at hp ⊢
  split_ifs at hp ⊢ <;> simp_all

lemma silenceStart_of_silent_keep {now : Int} {level : ℚ} {s : VADState}
    (h : ¬ smoothedOf s level > s.threshold) (hs : s.isSpeaking = true)
    (hp : (processAudioLevel now level s).1.isSpeaking = true) :
    (processAudioLevel now level s).1.silenceStartTime
      = some (s.silenceStartTime.getD now) := by
  simp only [processAudioLevel_eq, if_neg h, handleSilenceDetected_eq, statsStep_eq] at hp ⊢
  split_ifs at hp ⊢ <;> simp_all

lemma consec_chain (s0 : VADState) (h0 : s0.consecutiveSpeech = 0)
    (xs : List (Int × ℚ)) :
    ∃ ys zs, xs = ys ++ zs ∧
      zs.length = (vadStateAfter s0 xs).consecutiveSpeech ∧
      chainActive (vadStateAfter s0 ys) zs := by
  induction xs using List.reverseRecOn with
  | nil => exact ⟨[], [], by simp, by simp [vadStateAfter, h0], trivial⟩
  | append_singleton xs x ih =>
      obtain ⟨ys, zs, hsplit, hlen, hchain⟩ := ih
      by_cases h : stepActive (vadStateAfter s0 xs) x
      · refine ⟨ys, zs ++ [x], by rw [hsplit, List.append_assoc], ?_, ?_⟩
        · rw [vadStateAfter_snoc, consec_active h]
          simp [hlen]
        · rw [chainActive_append]
          refine ⟨hchain, ?_⟩
          have hstate : vadStateAfter (vadStateAfter s0 ys) zs = vadStateAfter s0 xs := by
            rw [← vadStateAfter_append, ← hsplit]
          rw [hstate]
          exact ⟨h, trivial⟩
      · refine ⟨xs ++ [x], [], by simp, ?_, trivial⟩
        rw [vadStateAfter_snoc, consec_silent h]
        rfl

lemma silence_run (s0 : VADState) (h0 : s0.isSpeaking = false)
    (xs : List (Int × ℚ)) :
    ∀ t0, (vadStateAfter s0 xs).isSpeaking = true →
      (vadStateAfter s0 xs).silenceStartTime = some t0 →
      ∃ ys zs, xs = ys ++ zs ∧ zs ≠ [] ∧ zs.headI.1 = t0 ∧
        chainSilent (vadStateAfter s0 ys) zs := by
  induction xs using List.reverseRecOn with
  | nil =>
      intro t0 hsp _
      rw [show vadStateAfter s0 [] = s0 from rfl, h0] at hsp
      cases hsp
  | append_singleton xs x ih =>
      intro t0 hsp hss
      rw [vadStateAfter_snoc] at hsp hss
      by_cases h : stepActive (vadStateAfter s0 xs) x
      · rw [silenceStart_of_active h hsp] at hss
        cases hss
      · by_cases hpre : (vadStateAfter s0 xs).isSpeaking = true
        · rw [silenceStart_of_silent_keep h hpre hsp] at hss
          rcases hprev : (vadStateAfter s0 xs).silenceStartTime with _ | a
          · refine ⟨xs, [x], rfl, by simp, ?_, ⟨h, trivial⟩⟩
            rw [hprev] at hss
            simpa using hss
          · rw [hprev] at hss
            obtain ⟨ys, zs, hsplit, hne, hhead, hchain⟩ := ih a hpre hprev
            refine ⟨ys, zs ++ [x], by rw [hsplit, List.append_assoc], by simp, ?_, ?_⟩
            · rcases zs with _ | ⟨b, t⟩
              · exact absurd rfl hne
              · simpa using hhead.trans (by simpa using hss)
            · rw [chainSilent_append]
              refine ⟨hchain, ?_⟩
              have hstate : vadStateAfter (vadStateAfter s0 ys) zs = vadStateAfter s0 xs := by
                rw [← vadStateAfter_append, ← hsplit]
              rw [hstate]
              exact ⟨h, trivial⟩
        · have hfin := @notSpeaking_of_silent x.1 x.2 (vadStateAfter s0 xs) h
            (by simpa using hpre)
          rw [hfin] at hsp
          cases hsp

lemma headI_append_of_ne {α : Type} [Inhabited α] {zs : List α} (h : zs ≠ [])
    (l : List α) : (zs ++ l).headI = zs.headI := by
  cases zs with
  | nil => exact absurd rfl h
  | cons b t => rfl

/-- C4: over any timed loudness trace fed to `processAudioLevel` from a
fresh VAD state, (a) `isSpeaking` turns on only at a sample that closes
a run of at least `requiredConsecutive` (default 3) consecutive samples
whose smoothed level exceeds the threshold, and (b) `isSpeaking` turns
off only at a silent sample whose wall-clock time is at least
`silenceTimeout` milliseconds after the head of an unbroken run of
silent samples ending there — a wall-clock criterion, not a
sample-count debounce. -/
theorem vad_debounce_and_silence_timeout (s0 : VADState)
    (hcs : s0.consecutiveSpeech = 0) (hsp0 : s0.isSpeaking = false) :
    (∀ xs x, (vadStateAfter s0 xs).isSpeaking = false →
       (vadStateAfter s0 (xs ++ [x])).isSpeaking = true →
       ∃ ys zs, xs ++ [x] = ys ++ zs ∧ s0.requiredConsecutive ≤ zs.length ∧
         chainActive (vadStateAfter s0 ys) zs)
  ∧ (∀ xs x, (vadStateAfter s0 xs).isSpeaking = true →
       (vadStateAfter s0 (xs ++ [x])).isSpeaking = false →
       ∃ ys zs, xs = ys ++ zs ∧
         chainSilent (vadStateAfter s0 ys) (zs ++ [x]) ∧
         s0.silenceTimeout ≤ x.1 - (zs ++ [x]).headI.1) := by
  constructor
  · intro xs x hpre hpost
    rw [vadStateAfter_snoc] at hpost
    obtain ⟨hact, hreq⟩ := speaking_up_char hpre hpost
    obtain ⟨ys, zs, hsplit, hlen, hchain⟩ := consec_chain s0 hcs xs
    refine ⟨ys, zs ++ [x], by rw [hsplit, List.append_assoc], ?_, ?_⟩
    · have hconf := (vadStateAfter_config s0 xs).2.2.1
      rw [← hconf]
      simp only [List.length_append, List.length_singleton, hlen]
      exact hreq
    · rw [chainActive_append]
      refine ⟨hchain, ?_⟩
      have hstate : vadStateAfter (vadStateAfter s0 ys) zs = vadStateAfter s0 xs := by
        rw [← vadStateAfter_append, ← hsplit]
      rw [hstate]
      exact ⟨hact, trivial⟩
  · intro xs x hpre hpost
    rw [vadStateAfter_snoc] at hpost
    obtain ⟨hsil, hto⟩ := speaking_down_char hpre hpost
    have htoconf := (vadStateAfter_config s0 xs).2.1
    rcases hprev : (vadStateAfter s0 xs).silenceStartTime with _ | a
    · refine ⟨xs, [], by simp, ⟨hsil, trivial⟩, ?_⟩
      rw [hprev] at hto
      simp only [List.nil_append, List.headI]
      rw [← htoconf]
      simpa using hto
    · rw [hprev] at hto
      obtain ⟨ys, zs, hsplit, hne, hhead, hchain⟩ := silence_run s0 hsp0 xs a hpre hprev
      refine ⟨ys, zs, hsplit, ?_, ?_⟩
      · rw [chainSilent_append]
        refine ⟨hchain, ?_⟩
        have hstate : vadStateAfter (vadStateAfter s0 ys) zs = vadStateAfter s0 xs := by
          rw [← vadStateAfter_append, ← hsplit]
        rw [hstate]
        exact ⟨hsil, trivial⟩
      · rw [headI_append_of_ne hne, hhead, ← htoconf]
        simpa using hto

/-- Witness for `vad_debounce_and_silence_timeout`: with the default
configuration, three consecutive full-scale samples flip the detector
on, and the decomposition promised by part (a) exists. -/
theorem vad_debounce_and_silence_timeout_witness :
    ∃ ys zs,
      ([((0:Int),(1:ℚ)), (100,1)] ++ [((200:Int),(1:ℚ))]) = ys ++ zs ∧
      initVAD.requiredConsecutive ≤ zs.length ∧
      chainActive (vadStateAfter initVAD ys) zs := by
  refine (vad_debounce_and_silence_timeout initVAD rfl rfl).1
    [(0,1),(100,1)] (200,1) ?_ ?_
  · norm_num [vadStateAfter, processAudioLevel, smoothedOf, pushHistory, updateStats,
      handleVoiceDetected, handleSilenceDetected, startSpeaking, endSpeaking, initVAD]
  · norm_num [vadStateAfter, processAudioLevel, smoothedOf, pushHistory, updateStats,
      handleVoiceDetected, handleSilenceDetected, startSpeaking, endSpeaking, initVAD]

/-- Selects the `onSpeechStart`/`onSpeechEnd` callbacks from the event
stream, ignoring the per-sample `onVoiceActivity` reports. -/
def isEpisode : VadEvent → Bool
  | .voiceActivity _ _ => false
  | _ => true

/-- The episode events (speech start / speech end) of an event list. -/
def episodeEvents (l : List VadEvent) : List VadEvent := l.filter isEpisode

/-- Ghost summary of a VAD state for episode bookkeeping: `some t0`
when the detector is speaking with recorded start time `t0`. -/
def speakingTag (s : VADState) : Option Int :=
  if s.isSpeaking then some (s.speechStartTime.getD 0) else none

/-- Well-formed episode event stream starting from a given speaking tag:
starts and ends alternate, and every end reports exactly its own time
minus the time of the matching start. -/
def altOkFrom : Option Int → List VadEvent → Prop
  | _, [] => True
  | none, .speechStart t :: rest => altOkFrom (some t) rest
  | some t0, .speechEnd t d :: rest => d = t - t0 ∧ altOkFrom none rest
  | _, _ :: _ => False

lemma episodeEvents_append (l1 l2 : List VadEvent) :
    episodeEvents (l1 ++ l2) = episodeEvents l1 ++ episodeEvents l2 :=
  List.filter_append l1 l2

lemma step_shape (now : Int) (level : ℚ) (s : VADState) :
    (episodeEvents (processAudioLevel now level s).2 = []
       ∧ speakingTag (processAudioLevel now level s).1 = speakingTag s)
  ∨ (episodeEvents (processAudioLevel now level s).2 = [.speechStart now]
       ∧ speakingTag s = none
       ∧ speakingTag (processAudioLevel now level s).1 = some now)
  ∨ (∃ t0, episodeEvents (processAudioLevel now level s).2 = [.speechEnd now (now - t0)]
       ∧ speakingTag s = some t0
       ∧ speakingTag (processAudioLevel now level s).1 = none) := by
  simp only [processAudioLevel_eq]
  split_ifs with hact
  · simp only [handleVoiceDetected_eq, statsStep_eq]
    split_ifs with hsp hreq
    · left
      simp_all [episodeEvents, isEpisode, speakingTag]
    · right; left
      simp_all [episodeEvents, isEpisode, speakingTag]
    · left
      simp_all [episodeEvents, isEpisode, speakingTag]
  · simp only [handleSilenceDetected_eq, statsStep_eq]
    split_ifs with hsp hto
    · right; right
      refine ⟨s.speechStartTime.getD 0, ?_, ?_, ?_⟩ <;>
        simp_all [episodeEvents, isEpisode, speakingTag]
    · left
      simp_all [episodeEvents, isEpisode, speakingTag]
    · left
      simp_all [episodeEvents, isEpisode, speakingTag]

/-- C5 (amended): over any timed loudness trace, the VAD emits
`onSpeechStart` and `onSpeechEnd` strictly alternately — hence exactly
once each per speaking episode — and every `onSpeechEnd` reports
exactly the time at which the silence timeout expired minus the time
speech started.  The reported duration therefore INCLUDES the
silence-timeout tail (speech plus trailing silence), not merely the
span up to the point silence was first detected. -/
theorem vad_episode_alternation (s : VADState) (xs : List (Int × ℚ)) :
    altOkFrom (speakingTag s) (episodeEvents (vadEventsOf s xs)) := by
  induction xs generalizing s with
  | nil =>
      have h : episodeEvents (vadEventsOf s []) = [] := rfl
      rw [h]
      cases speakingTag s <;> exact trivial
  | cons x rest ih =>
      simp only [vadEventsOf, episodeEvents_append]
      rcases step_shape x.1 x.2 s with ⟨he, ht⟩ | ⟨he, ht1, ht2⟩ | ⟨t0, he, ht1, ht2⟩
      · rw [he, List.nil_append, ← ht]
        exact ih _
      · rw [he, ht1, List.cons_append, List.nil_append]
        show altOkFrom (some x.1) _
        rw [← ht2]
        exact ih _
      · rw [he, ht1, List.cons_append, List.nil_append]
        exact ⟨rfl, by rw [← ht2]; exact ih _⟩

/-- Prefix of the C5 scenario trace: three voiced samples (speech is
detected at the third, t = 2), then silent samples until the smoothing
window drains and silence is first detected at t = 7. -/
def exPre : List (Int × ℚ) := [(0,1),(1,1),(2,1),(3,0),(4,0),(5,0),(6,0),(7,0)]

/-- The full C5 scenario trace: speech, silence detected at t = 7, and
a final silent sample at t = 1507 where the 1500 ms timeout expires. -/
def exTrace : List (Int × ℚ) := exPre ++ [(1507, 0)]

set_option maxRecDepth 20000 in
set_option maxHeartbeats 4000000 in
/-- C5 (counterexample): on a concrete trace the speaking episode starts
at t = 2 and silence is first detected at t = 7 (the recorded
`silenceStartTime`), so the claimed duration — speech start to the
point silence was first detected — would be 5 ms; but the emitted
`onSpeechEnd` reports 1505 ms, the full span up to expiry of the
1500 ms timeout.  The reported duration includes the timeout tail. -/
theorem vad_duration_counterexample :
    episodeEvents (vadEventsOf initVAD exTrace)
        = [.speechStart 2, .speechEnd 1507 1505]
  ∧ (vadStateAfter initVAD exPre).silenceStartTime = some 7
  ∧ (1505 : Int) ≠ 7 - 2 := by
  refine ⟨?_, ?_, by norm_num⟩
  · norm_num [vadEventsOf, episodeEvents, isEpisode, exTrace, exPre,
      vadStateAfter, processAudioLevel, smoothedOf, pushHistory, updateStats,
      handleVoiceDetected, handleSilenceDetected, startSpeaking, endSpeaking, initVAD,
      List.filter]
    decide
  · norm_num [exPre, vadStateAfter, processAudioLevel, smoothedOf, pushHistory,
      updateStats, handleVoiceDetected, handleSilenceDetected, startSpeaking, endSpeaking,
      initVAD]

end Vad

namespace Gem

/-- `ConnectionState` from `src/types/index.ts`. -/
inductive ConnState where
  | disconnected
  | connecting
  | connected
  | reconnecting
deriving Repr, DecidableEq

/-- `GeminiErrorType` from `src/services/GeminiService.ts`. -/
inductive GemErrType where
  | apiKeyInvalid
  | apiKeyMissing
  | networkError
  | connectionTimeout
  | rateLimit
  | serverError
  | websocketError
  | unknown
deriving Repr, DecidableEq

/-- The maximum reconnection attempt count,
`CONSTANTS.RECONNECT_MAX_ATTEMPTS` from `src/types/index.ts`. -/
def RECONNECT_MAX_ATTEMPTS : Nat := 5

/-- Mutable fields of `GeminiService` from
`src/services/GeminiService.ts` relevant to connection handling.
`hasWs` models `this.ws !== null` and `wsOpen` models
`this.ws.readyState === WebSocket.OPEN`. -/
structure GemState where
  hasWs : Bool
  wsOpen : Bool
  apiKey : String
  reconnectAttempts : Nat
  isSetupComplete : Bool
  connectionState : ConnState
  lastActivityTime : Int
deriving Repr, DecidableEq

/-- Externally visible effects of one `GeminiService` call: frames put
on the socket, timers armed, callbacks fired. -/
inductive GemOut where
  | realtimeAudioSent (b64 : String)
  | setupSent
  | reconnectScheduled (delayMs : Nat)
  | errorEmitted (t : GemErrType) (retryable : Bool)
  | stateChanged (st : ConnState)
deriving Repr, DecidableEq

/-- The fresh service instance (field initializers of `GeminiService`). -/
def initGem : GemState :=
  { hasWs := false, wsOpen := false, apiKey := "", reconnectAttempts := 0,
    isSetupComplete := false, connectionState := ConnState.disconnected,
    lastActivityTime := 0 }

/-- The RFC 4648 base64 alphabet used by `btoa`. -/
def base64Table : List Char :=
  "ABCDEFGHIJKLMNOPQRSTUVWXYZabcdefghijklmnopqrstuvwxyz0123456789+/".toList

/-- Character of the base64 alphabet at a 6-bit index. -/
def b64c (n : Nat) : Char := base64Table.getD n 'A'

/-- `arrayBufferToBase64` from `src/services/GeminiService.ts`: the
byte buffer is turned into a binary string (chunked concatenation of
`String.fromCharCode`, which equals the unchunked string) and encoded
with `btoa`, i.e. standard base64 with padding. -/
def base64Encode : List Nat → String
  | [] => ""
  | [a] => String.mk [b64c (a / 4), b64c (a % 4 * 16), '=', '=']
  | [a, b] => String.mk [b64c (a / 4), b64c (a % 4 * 16 + b / 16), b64c (b % 16 * 4), '=']
  | a :: b :: c :: rest =>
      String.mk [b64c (a / 4), b64c (a % 4 * 16 + b / 16), b64c (b % 16 * 4 + c / 64),
        b64c (c % 64)] ++ base64Encode rest

/-- `setConnectionState(state)` from `src/services/GeminiService.ts`:
stores the state, notifies the subscriber, and resets
`reconnectAttempts` when the new state is `connected`. -/
def setConnectionState (st : ConnState) (s : GemState) : GemState × List GemOut :=
  let s1 := { s with connectionState := st }
  let s2 := if st = ConnState.connected then { s1 with reconnectAttempts := 0 } else s1
  (s2, [.stateChanged st])

/-- `validateApiKey()` from `src/services/GeminiService.ts`: rejects an
empty key as `API_KEY_MISSING` and a key shorter than 30 characters as
`API_KEY_INVALID`; both are non-retryable.  Returns `none` iff the key
passes.  The pair is (error type, retryable flag). -/
def validateApiKey (key : String) : Option (GemErrType × Bool) :=
  if key = "" then some (GemErrType.apiKeyMissing, false)
  else if key.length < 30 then some (GemErrType.apiKeyInvalid, false)
  else none

/-- Result of the synchronous prefix of `connect()`. -/
inductive ConnectResult where
  | failed
  | alreadyActive
  | pending
deriving Repr, DecidableEq

/-- The synchronous prefix of `connect()` from
`src/services/GeminiService.ts`, up to construction of the WebSocket:
validate the key (failing immediately on error), short-circuit when
already connected/connecting, otherwise enter `connecting` and create
the socket.  The final `Bool` records whether a socket was opened;
the asynchronous continuation (open/message/close) is modelled by the
events below. -/
def connect (s : GemState) : GemState × ConnectResult × List GemOut × Bool :=
  match validateApiKey s.apiKey with
  | some e => (s, ConnectResult.failed, [.errorEmitted e.1 e.2], false)
  | none =>
      if s.connectionState = ConnState.connected
          ∨ s.connectionState = ConnState.connecting then
        (s, ConnectResult.alreadyActive, [], false)
      else
        let r := setConnectionState ConnState.connecting s
        ({ r.1 with hasWs := true, wsOpen := false }, ConnectResult.pending, r.2, true)

/-- `sendAudio(data)` from `src/services/GeminiService.ts`: silently a
no-op unless a socket exists, the state is `connected` and the
handshake is complete (and the socket is open); otherwise base64-encode
the audio, frame it as a realtime-input message, send it and update the
activity timestamp. -/
def sendAudio (bytes : List Nat) (now : Int) (s : GemState) : GemState × List GemOut :=
  if ¬ s.hasWs ∨ s.connectionState ≠ ConnState.connected ∨ ¬ s.isSetupComplete then
    (s, [])
  else if ¬ s.wsOpen then (s, [])
  else ({ s with lastActivityTime := now }, [.realtimeAudioSent (base64Encode bytes)])

/-- `ws.onopen` from `connect()`: record activity and send the Setup
handshake message. -/
def wsOpened (now : Int) (s : GemState) : GemState × List GemOut :=
  ({ s with wsOpen := true, lastActivityTime := now }, [.setupSent])

/-- The `setupComplete` branch of `handleMessage` (with the
`ws.onmessage` activity bookkeeping): mark the handshake complete and
transition to `connected`. -/
def recvSetupComplete (now : Int) (s : GemState) : GemState × List GemOut :=
  let s1 := { s with lastActivityTime := now, isSetupComplete := true }
  setConnectionState ConnState.connected s1

/-- The error classification of the terminal branch of
`handleDisconnect`: close code 4001 or an API-key reason means invalid
credentials, 4029 or a rate-limit reason means rate limiting, other
4xxx codes mean server error. -/
def classifyClose (code : Nat) (rApiKey rRateLimit : Bool) : GemErrType :=
  if code = 4001 ∨ rApiKey then GemErrType.apiKeyInvalid
  else if code = 4029 ∨ rRateLimit then GemErrType.rateLimit
  else if 4000 ≤ code ∧ code < 5000 then GemErrType.serverError
  else GemErrType.unknown

/-- `handleDisconnect(event)` from `src/services/GeminiService.ts`.
`rApiKey`/`rRateLimit` model `event.reason?.includes('API key')` and
`event.reason?.includes('rate limit')`.  A non-normal closure code with
attempts left schedules a reconnect after
`min(2^(attempts-1)*1000, 16000)` ms; a non-normal code with the budget
exhausted classifies and reports a terminal error; a normal closure
(code 1000) just becomes `disconnected`. -/
def handleDisconnect (code : Nat) (rApiKey rRateLimit : Bool) (s : GemState) :
    GemState × List GemOut :=
  let s0 := { s with isSetupComplete := false, wsOpen := false }
  if code ≠ 1000 ∧ s0.reconnectAttempts < RECONNECT_MAX_ATTEMPTS then
    let r := setConnectionState ConnState.reconnecting s0
    let s1 := { r.1 with reconnectAttempts := r.1.reconnectAttempts + 1 }
    (s1, r.2 ++ [.reconnectScheduled (min (2 ^ (s1.reconnectAttempts - 1) * 1000) 16000)])
  else if code ≠ 1000 then
    let r := setConnectionState ConnState.disconnected s0
    (r.1, r.2 ++ [.errorEmitted (classifyClose code rApiKey rRateLimit)
      (classifyClose code rApiKey rRateLimit ≠ GemErrType.apiKeyInvalid)])
  else
    setConnectionState ConnState.disconnected s0

/-- `disconnect()` from `src/services/GeminiService.ts`: the close
handler is detached before closing with code 1000, so no
`handleDisconnect` runs; the socket is dropped, the handshake flag and
the attempt counter are reset and the state becomes `disconnected`. -/
def disconnect (s : GemState) : GemState × List GemOut :=
  setConnectionState ConnState.disconnected
    { s with hasWs := false, wsOpen := false, isSetupComplete := false,
             reconnectAttempts := 0 }

/-- External events driving the service. -/
inductive GemEvent where
  | sendAudioCall (bytes : List Nat) (now : Int)
  | connectCall
  | socketOpen (now : Int)
  | msgSetupComplete (now : Int)
  | wsClosed (code : Nat) (rApiKey rRateLimit : Bool)
  | userDisconnect
deriving Repr, DecidableEq

/-- One event step of the service. -/
def step (s : GemState) : GemEvent → GemState × List GemOut
  | .sendAudioCall bytes now => sendAudio bytes now s
  | .connectCall => ((connect s).1, (connect s).2.2.1)
  | .socketOpen now => wsOpened now s
  | .msgSetupComplete now => recvSetupComplete now s
  | .wsClosed code rk rr => handleDisconnect code rk rr s
  | .userDisconnect => disconnect s

/-- State after a list of events. -/
def stateAfter (s : GemState) : List GemEvent → GemState
  | [] => s
  | e :: rest => stateAfter (step s e).1 rest

/-- Per-event output lists, in order. -/
def outsOf (s : GemState) : List GemEvent → List (List GemOut)
  | [] => []
  | e :: rest => (step s e).2 :: outsOf (step s e).1 rest

/-- An event that is an abnormal socket closure (close code other than
the normal 1000). -/
def isAbnormalClose (e : GemEvent) : Prop :=
  ∃ c rk rr, e = GemEvent.wsClosed c rk rr ∧ c ≠ 1000

lemma RECONNECT_MAX_ATTEMPTS_eq : RECONNECT_MAX_ATTEMPTS = 5 := rfl

lemma handleDisconnect_abnormal_lt {code : Nat} {rk rr : Bool} {s : GemState}
    (hc : code ≠ 1000) (ha : s.reconnectAttempts < RECONNECT_MAX_ATTEMPTS) :
    handleDisconnect code rk rr s =
      ({ s with isSetupComplete := false, wsOpen := false,
                connectionState := ConnState.reconnecting,
                reconnectAttempts := s.reconnectAttempts + 1 },
       [.stateChanged ConnState.reconnecting,
        .reconnectScheduled (min (2 ^ s.reconnectAttempts * 1000) 16000)]) := by
  simp [handleDisconnect, setConnectionState, hc, ha]

lemma handleDisconnect_abnormal_ge {code : Nat} {rk rr : Bool} {s : GemState}
    (hc : code ≠ 1000) (ha : ¬ s.reconnectAttempts < RECONNECT_MAX_ATTEMPTS) :
    handleDisconnect code rk rr s =
      ({ s with isSetupComplete := false, wsOpen := false,
                connectionState := ConnState.disconnected },
       [.stateChanged ConnState.disconnected,
        .errorEmitted (classifyClose code rk rr)
          (classifyClose code rk rr ≠ GemErrType.apiKeyInvalid)]) := by
  simp [handleDisconnect, setConnectionState, hc, ha]

lemma handleDisconnect_normal (rk rr : Bool) (s : GemState) :
    handleDisconnect 1000 rk rr s =
      ({ s with isSetupComplete := false, wsOpen := false,
                connectionState := ConnState.disconnected },
       [.stateChanged ConnState.disconnected]) := by
  simp [handleDisconnect, setConnectionState]

lemma outsOf_length (s : GemState) (evs : List GemEvent) :
    (outsOf s evs).length = evs.length := by
  induction evs generalizing s with
  | nil => rfl
  | cons e rest ih => simp [outsOf, ih]

lemma outsOf_get? (evs : List GemEvent) (s : GemState) (k : Nat) :
    (outsOf s evs).get? k =
      (evs.get? k).map (fun e => (step (stateAfter s (evs.take k)) e).2) := by
  induction evs generalizing s k with
  | nil => simp [outsOf]
  | cons e rest ih =>
      cases k with
      | zero => simp [outsOf, stateAfter]
      | succ k' => exact ih (step s e).1 k'

lemma attempts_after_closes (evs : List GemEvent) (s : GemState)
    (habn : ∀ e ∈ evs, isAbnormalClose e)
    (hle : s.reconnectAttempts ≤ RECONNECT_MAX_ATTEMPTS) :
    (stateAfter s evs).reconnectAttempts =
      min (s.reconnectAttempts + evs.length) RECONNECT_MAX_ATTEMPTS := by
  induction evs generalizing s with
  | nil => simp [stateAfter]; omega
  | cons e rest ih =>
      obtain ⟨c, rk, rr, rfl, hc⟩ := habn e (List.mem_cons_self e rest)
      by_cases hlt : s.reconnectAttempts < RECONNECT_MAX_ATTEMPTS
      · have hstep : (step s (GemEvent.wsClosed c rk rr)).1.reconnectAttempts
            = s.reconnectAttempts + 1 := by
          simp [step, handleDisconnect_abnormal_lt hc hlt]
        have := ih (step s (GemEvent.wsClosed c rk rr)).1
          (fun e he => habn e (List.mem_cons_of_mem _ he)) (by omega)
        simp only [stateAfter] at this ⊢
        rw [this, hstep]
        simp
        omega
      · have hstep : (step s (GemEvent.wsClosed c rk rr)).1.reconnectAttempts
            = s.reconnectAttempts := by
          simp [step, handleDisconnect_abnormal_ge hc hlt]
        have := ih (step s (GemEvent.wsClosed c rk rr)).1
          (fun e he => habn e (List.mem_cons_of_mem _ he)) (by rw [hstep]; omega)
        simp only [stateAfter] at this ⊢
        rw [this, hstep]
        simp
        omega

/-- Core of the reconnection claims: starting a streak of abnormal
closures with the attempt counter at zero, the Nth closure (N up to the
maximum) schedules a reconnect with delay exactly
`min(2^(N-1)*1000, 16000)` ms, and from the 6th closure on no reconnect
is ever scheduled. -/
lemma backoff_streak (s : GemState) (h0 : s.reconnectAttempts = 0)
    (evs : List GemEvent) (habn : ∀ e ∈ evs, isAbnormalClose e) :
    (∀ N o, 1 ≤ N → N ≤ RECONNECT_MAX_ATTEMPTS →
        (outsOf s evs).get? (N - 1) = some o →
        GemOut.reconnectScheduled (min (2 ^ (N - 1) * 1000) 16000) ∈ o)
  ∧ (∀ k o, RECONNECT_MAX_ATTEMPTS ≤ k → (outsOf s evs).get? k = some o →
        ∀ d, GemOut.reconnectScheduled d ∉ o) := by
  have hpre : ∀ k, (∀ e ∈ evs.take k, isAbnormalClose e) :=
    fun k e he => habn e (List.mem_of_mem_take he)
  constructor
  · intro N o h1 h5 ho
    rw [outsOf_get?] at ho
    rcases hg : evs.get? (N - 1) with _ | e
    · rw [hg] at ho; cases ho
    · rw [hg] at ho
      obtain ⟨c, rk, rr, rfl, hc⟩ := habn e (List.get?_mem hg)
      have hklen : N - 1 < evs.length := List.get?_eq_some.mp hg |>.1
      have htk : (evs.take (N - 1)).length = N - 1 := by
        rw [List.length_take]; omega
      have hat : (stateAfter s (evs.take (N - 1))).reconnectAttempts = N - 1 := by
        rw [attempts_after_closes _ _ (hpre (N - 1)) (by rw [h0]; exact Nat.zero_le _),
          htk, h0, RECONNECT_MAX_ATTEMPTS_eq]
        rw [RECONNECT_MAX_ATTEMPTS_eq] at h5
        omega
      rw [Option.map_some'] at ho
      injection ho with ho
      subst ho
      rw [step, handleDisconnect_abnormal_lt hc
        (by rw [hat, RECONNECT_MAX_ATTEMPTS_eq]; rw [RECONNECT_MAX_ATTEMPTS_eq] at h5; omega),
        hat]
      simp
  · intro k o hk ho
    rw [outsOf_get?] at ho
    rcases hg : evs.get? k with _ | e
    · rw [hg] at ho; cases ho
    · rw [hg] at ho
      obtain ⟨c, rk, rr, rfl, hc⟩ := habn e (List.get?_mem hg)
      have hklen : k < evs.length := List.get?_eq_some.mp hg |>.1
      have htk : (evs.take k).length = k := by
        rw [List.length_take]; omega
      have hat : (stateAfter s (evs.take k)).reconnectAttempts = RECONNECT_MAX_ATTEMPTS := by
        rw [attempts_after_closes _ _ (hpre k) (by rw [h0]; exact Nat.zero_le _),
          htk, h0, RECONNECT_MAX_ATTEMPTS_eq]
        rw [RECONNECT_MAX_ATTEMPTS_eq] at hk
        omega
      rw [Option.map_some'] at ho
      injection ho with ho
      subst ho
      rw [step, handleDisconnect_abnormal_ge hc (by rw [hat]; omega)]
      simp

lemma audio_out_char (s : GemState) (e : GemEvent) (b : String)
    (h : GemOut.realtimeAudioSent b ∈ (step s e).2) :
    (∃ bytes now, e = GemEvent.sendAudioCall bytes now)
  ∧ s.isSetupComplete = true ∧ s.connectionState = ConnState.connected := by
  cases e with
  | sendAudioCall bytes now =>
      refine ⟨⟨bytes, now, rfl⟩, ?_⟩
      simp only [step, sendAudio] at h
      split_ifs at h with h1 h2 <;> simp_all
  | connectCall =>
      exfalso
      simp only [step] at h
      rcases hv : validateApiKey s.apiKey with _ | err <;>
        simp [connect, hv, setConnectionState] at h <;> split_ifs at h <;> simp_all
  | socketOpen now =>
      exfalso
      simp [step, wsOpened] at h
  | msgSetupComplete now =>
      exfalso
      simp [step, recvSetupComplete, setConnectionState] at h
  | wsClosed code rk rr =>
      exfalso
      by_cases hc : code = 1000
      · subst hc
        simp [step, handleDisconnect_normal] at h
      · by_cases ha : s.reconnectAttempts < RECONNECT_MAX_ATTEMPTS
        · simp [step, handleDisconnect_abnormal_lt hc ha] at h
        · simp [step, handleDisconnect_abnormal_ge hc ha] at h
  | userDisconnect =>
      exfalso
      simp [step, disconnect, setConnectionState] at h

lemma setup_preserved (s : GemState) (e : GemEvent)
    (h : s.isSetupComplete = false)
    (hne : ∀ now, e ≠ GemEvent.msgSetupComplete now) :
    (step s e).1.isSetupComplete = false := by
  cases e with
  | sendAudioCall bytes now =>
      simp only [step, sendAudio]
      split_ifs <;> simp_all
  | connectCall =>
      simp only [step]
      rcases hv : validateApiKey s.apiKey with _ | err
      · simp only [connect, hv]
        split_ifs <;> simp_all [setConnectionState]
      · simpa [connect, hv] using h
  | socketOpen now => simpa [step, wsOpened] using h
  | msgSetupComplete now => exact absurd rfl (hne now)
  | wsClosed code rk rr =>
      by_cases hc : code = 1000
      · subst hc
        simp [step, handleDisconnect_normal]
      · by_cases ha : s.reconnectAttempts < RECONNECT_MAX_ATTEMPTS
        · simp [step, handleDisconnect_abnormal_lt hc ha]
        · simp [step, handleDisconnect_abnormal_ge hc ha]
  | userDisconnect => simp [step, disconnect, setConnectionState]

lemma sent_after_setup (evs : List GemEvent) :
    ∀ s, s.isSetupComplete = false →
    ∀ i o, (outsOf s evs).get? i = some o → (∃ b, GemOut.realtimeAudioSent b ∈ o) →
    ∃ j now, j < i ∧ evs.get? j = some (GemEvent.msgSetupComplete now) := by
  induction evs with
  | nil =>
      intro s _ i o ho _
      simp [outsOf] at ho
  | cons e rest ih =>
      intro s hs i o ho hb
      cases i with
      | zero =>
          obtain ⟨b, hbmem⟩ := hb
          have ho0 : o = (step s e).2 := by
            simpa [outsOf] using ho.symm
          subst ho0
          have hchar := (audio_out_char s e b hbmem).2.1
          rw [hs] at hchar
          cases hchar
      | succ i' =>
          have ho' : (outsOf (step s e).1 rest).get? i' = some o := by
            simpa [outsOf] using ho
          by_cases he : ∃ now, e = GemEvent.msgSetupComplete now
          · obtain ⟨now, rfl⟩ := he
            exact ⟨0, now, by omega, rfl⟩
          · push_neg at he
            have hs' := setup_preserved s e hs he
            obtain ⟨j, now, hj, hget⟩ := ih (step s e).1 hs' i' o ho' hb
            exact ⟨j + 1, now, by omega, by simpa using hget⟩

/-- C2: along any uninterrupted streak of abnormal socket closures
starting with a zeroed attempt counter, the Nth closure (1 ≤ N ≤ 5)
schedules the Nth reconnection attempt with a timer delay of exactly
`min(2^(N-1)*1000, 16000)` milliseconds, and no closure at index 5 or
beyond (a would-be 6th attempt) ever schedules a reconnect. -/
theorem gem_reconnect_backoff (s : GemState) (h0 : s.reconnectAttempts = 0)
    (evs : List GemEvent) (habn : ∀ e ∈ evs, isAbnormalClose e) :
    (∀ N o, 1 ≤ N → N ≤ RECONNECT_MAX_ATTEMPTS →
        (outsOf s evs).get? (N - 1) = some o →
        GemOut.reconnectScheduled (min (2 ^ (N - 1) * 1000) 16000) ∈ o)
  ∧ (∀ k o, RECONNECT_MAX_ATTEMPTS ≤ k → (outsOf s evs).get? k = some o →
        ∀ d, GemOut.reconnectScheduled d ∉ o) :=
  backoff_streak s h0 evs habn

/-- Witness for `gem_reconnect_backoff`: on six abnormal closures with
code 1006 from the fresh service, the third closure schedules the third
attempt with delay min(2^2*1000, 16000) = 4000 ms. -/
theorem gem_reconnect_backoff_witness :
    GemOut.reconnectScheduled (min (2 ^ (3 - 1) * 1000) 16000) ∈
      [GemOut.stateChanged ConnState.reconnecting, GemOut.reconnectScheduled 4000] :=
  (gem_reconnect_backoff initGem rfl
      (List.replicate 6 (GemEvent.wsClosed 1006 false false))
      (fun e he => ⟨1006, false, false, List.eq_of_mem_replicate he, by norm_num⟩)).1
    3 [GemOut.stateChanged ConnState.reconnecting, GemOut.reconnectScheduled 4000]
    (by norm_num) (by decide) (by decide)

/-- C7: `sendAudio` is a strict no-op (no frame sent, no state change at
all) unless the connection state is `connected` and the handshake is
complete; when it does send, the single emitted frame carries the
base64 encoding of the audio and the only state change is the activity
timestamp; consequently, along any event trace from the fresh service a
realtime-audio frame is only ever sent strictly after a `setupComplete`
message was observed. -/
theorem gem_sendAudio_gating :
    (∀ s bytes now,
        ¬ (s.connectionState = ConnState.connected ∧ s.isSetupComplete = true) →
        sendAudio bytes now s = (s, []))
  ∧ (∀ s bytes now, (sendAudio bytes now s).2 ≠ [] →
        (sendAudio bytes now s).2 = [GemOut.realtimeAudioSent (base64Encode bytes)]
      ∧ (sendAudio bytes now s).1 = { s with lastActivityTime := now })
  ∧ (∀ evs i o, (outsOf initGem evs).get? i = some o →
        (∃ b, GemOut.realtimeAudioSent b ∈ o) →
        ∃ j now, j < i ∧ evs.get? j = some (GemEvent.msgSetupComplete now)) := by
  refine ⟨?_, ?_, ?_⟩
  · intro s bytes now hg
    simp only [sendAudio]
    rw [if_pos]
    by_cases h1 : s.connectionState = ConnState.connected
    · by_cases h2 : s.isSetupComplete <;> simp_all
    · simp_all
  · intro s bytes now hne
    simp only [sendAudio] at hne ⊢
    split_ifs at hne ⊢ <;> simp_all
  · intro evs
    exact sent_after_setup evs initGem rfl

/-- Witness for `gem_sendAudio_gating`: on the fresh (disconnected,
un-handshaken) service, `sendAudio` sends nothing and changes nothing. -/
theorem gem_sendAudio_gating_witness :
    sendAudio [1, 2, 3] 5 initGem = (initGem, []) :=
  gem_sendAudio_gating.1 initGem [1, 2, 3] 5 (by decide)

/-- C8: a closure with the normal code 1000 never schedules a
reconnect (the service just becomes `disconnected`), and any closure
that does schedule a reconnect had a non-normal code. -/
theorem gem_normal_close_no_reconnect :
    (∀ s rk rr,
        (handleDisconnect 1000 rk rr s).1.connectionState = ConnState.disconnected
      ∧ ∀ d, GemOut.reconnectScheduled d ∉ (handleDisconnect 1000 rk rr s).2)
  ∧ (∀ s c rk rr d, GemOut.reconnectScheduled d ∈ (handleDisconnect c rk rr s).2 →
        c ≠ 1000) := by
  constructor
  · intro s rk rr
    rw [handleDisconnect_normal]
    exact ⟨rfl, by simp⟩
  · intro s c rk rr d hmem hc
    subst hc
    rw [handleDisconnect_normal] at hmem
    simp at hmem

/-- Witness for `gem_normal_close_no_reconnect`: the abnormal code 1006
does schedule a reconnect on the fresh service, and is indeed not 1000. -/
theorem gem_normal_close_no_reconnect_witness : (1006 : Nat) ≠ 1000 :=
  gem_normal_close_no_reconnect.2 initGem 1006 false false 1000 (by decide)

/-- C9: with an empty credential, `connect()` fails immediately with
the non-retryable `API_KEY_MISSING` error, changes no state, and opens
no socket; and the credential validation accepts a key exactly when it
is non-empty and of length at least 30. -/
theorem gem_connect_empty_credential (s : GemState) (h : s.apiKey = "") :
    connect s = (s, ConnectResult.failed,
      [GemOut.errorEmitted GemErrType.apiKeyMissing false], false)
  ∧ (∀ key, validateApiKey key = none ↔ (key ≠ "" ∧ 30 ≤ key.length)) := by
  constructor
  · simp [connect, validateApiKey, h]
  · intro key
    simp only [validateApiKey]
    split_ifs <;> simp_all

/-- Witness for `gem_connect_empty_credential` at the fresh service,
whose credential is the empty string. -/
theorem gem_connect_empty_credential_witness :
    connect initGem = (initGem, ConnectResult.failed,
      [GemOut.errorEmitted GemErrType.apiKeyMissing false], false) :=
  (gem_connect_empty_credential initGem rfl).1

/-- C10: `setConnectionState` zeroes the reconnection attempt counter
whenever the new state is `connected`; consequently after any
`setupComplete` message (which transitions to `connected`) a fresh
streak of abnormal closures is granted the full attempt budget again:
its Nth closure (N ≤ 5) schedules a reconnect with the full backoff
schedule. -/
theorem gem_attempts_reset_on_connected :
    (∀ s st, st = ConnState.connected →
        (setConnectionState st s).1.reconnectAttempts = 0)
  ∧ (∀ s now evs, (∀ e ∈ evs, isAbnormalClose e) →
      ∀ N o, 1 ≤ N → N ≤ RECONNECT_MAX_ATTEMPTS →
        (outsOf (step s (GemEvent.msgSetupComplete now)).1 evs).get? (N - 1) = some o →
        GemOut.reconnectScheduled (min (2 ^ (N - 1) * 1000) 16000) ∈ o) := by
  constructor
  · intro s st hst
    subst hst
    simp [setConnectionState]
  · intro s now evs habn
    have h0 : (step s (GemEvent.msgSetupComplete now)).1.reconnectAttempts = 0 := by
      simp [step, recvSetupComplete, setConnectionState]
    exact (backoff_streak _ h0 evs habn).1

/-- Witness for `gem_attempts_reset_on_connected`: concrete reset at the
fresh service, and the first closure after a setup-complete schedules
the first attempt (1000 ms) even if earlier attempts had been used. -/
theorem gem_attempts_reset_on_connected_witness :
    (setConnectionState ConnState.connected initGem).1.reconnectAttempts = 0
  ∧ GemOut.reconnectScheduled (min (2 ^ (1 - 1) * 1000) 16000) ∈
      [GemOut.stateChanged ConnState.reconnecting, GemOut.reconnectScheduled 1000] := by
  constructor
  · exact gem_attempts_reset_on_connected.1 initGem ConnState.connected rfl
  · exact gem_attempts_reset_on_connected.2
      { initGem with reconnectAttempts := 4 } 0
      (List.replicate 5 (GemEvent.wsClosed 1006 false false))
      (fun e he => ⟨1006, false, false, List.eq_of_mem_replicate he, by norm_num⟩)
      1 [GemOut.stateChanged ConnState.reconnecting, GemOut.reconnectScheduled 1000]
      (by norm_num) (by decide) (by decide)

end Gem

namespace Orch

/-- App session states, `Constants.STATE` from `js/constants.js`. -/
inductive AppMode where
  | idle
  | connecting
  | listening
  | speaking
  | error
deriving Repr, DecidableEq

/-- An AI audio fragment as delivered to the orchestrator.  `bytes` is
the `byteLength` of the PCM16 payload.  `turn` is ghost instrumentation
recording which AI turn the fragment belongs to — the code itself
attaches no such tag to frames. -/
structure Frame where
  turn : Nat
  bytes : Nat
deriving Repr, DecidableEq

/-- The playback output sample rate, `Constants.AUDIO.OUTPUT_SAMPLE_RATE`. -/
def OUTPUT_SAMPLE_RATE : ℚ := 24000

/-- Combined orchestrator state: the `AntiGravityApp` fields of
`js/app.js` (`appState.currentState`, `isAISpeaking`,
`currentPlaybackTimeout` modelled as the absolute fire time of the
armed timer) together with the playback side of the TypeScript
`AudioService` (`playbackQueue`, `isPlaying`).  The `liveTurn`,
`cancelledTurns`, `rendered` and `renderedAfterCancel` fields are ghost
instrumentation: they record which turn is in flight, which turns an
interruption has superseded, and every frame handed to the audio
output (flagged when its turn was already superseded); they influence
no branch. -/
structure OrchState where
  currentState : AppMode
  isSessionActive : Bool
  isUserSpeaking : Bool
  isAISpeaking : Bool
  playbackTimeoutAt : Option ℚ
  playbackQueue : List Frame
  isPlaying : Bool
  liveTurn : Option Nat
  cancelledTurns : List Nat
  rendered : List Frame
  renderedAfterCancel : List Frame
deriving Repr, DecidableEq

/-- `processPlaybackQueue()` from the TypeScript `AudioService`: an
empty queue parks playback (amplitude reports zero), otherwise the head
frame is dequeued and handed to the audio output. -/
def processPlaybackQueue (s : OrchState) : OrchState :=
  match s.playbackQueue with
  | [] => { s with isPlaying := false }
  | f :: rest =>
      { s with isPlaying := true, playbackQueue := rest,
               rendered := s.rendered ++ [f],
               renderedAfterCancel :=
                 if f.turn ∈ s.cancelledTurns
                 then s.renderedAfterCancel ++ [f]
                 else s.renderedAfterCancel }

/-- `playAudio(pcmData)` from the TypeScript `AudioService`: append the
fragment to the playback queue and start draining it if idle. -/
def playAudio (f : Frame) (s : OrchState) : OrchState :=
  let s1 := { s with playbackQueue := s.playbackQueue ++ [f] }
  if ¬ s1.isPlaying then processPlaybackQueue s1 else s1

/-- `stopPlayback()` from the TypeScript `AudioService`: flush the
playback queue and stop playing. -/
def stopPlayback (s : OrchState) : OrchState :=
  { s with playbackQueue := [], isPlaying := false }

/-- `handleInterruption()` from `js/app.js`: stop playback, cancel the
scheduled playback-completion timer, clear the AI-speaking flag and
transition to Listening.  Ghost bookkeeping marks the in-flight turn as
superseded. -/
def handleInterruption (s : OrchState) : OrchState :=
  let s1 := stopPlayback s
  let s2 := { s1 with playbackTimeoutAt := none, isAISpeaking := false,
                      currentState := AppMode.listening }
  { s2 with cancelledTurns :=
      match s.liveTurn with
      | some t => s.cancelledTurns ++ [t]
      | none => s.cancelledTurns }

/-- The `vadService.onSpeechStart` handler from `js/app.js`: mark the
user as speaking and, if the AI is currently speaking, run the
interruption protocol. -/
def onSpeechStart (s : OrchState) : OrchState :=
  let s1 := { s with isUserSpeaking := true }
  if s1.isAISpeaking then handleInterruption s1 else s1

/-- The `geminiService.onAudioResponse` handler from `js/app.js`
(lines 454-483): set the AI-speaking flag, enter Speaking, hand the
fragment to playback, and re-arm the playback-completion timer to fire
`(byteLength/2) / OUTPUT_SAMPLE_RATE * 1000 + 100` ms after THIS
fragment's arrival (any previously armed timer is cancelled first). -/
def onAudioResponse (f : Frame) (now : ℚ) (s : OrchState) : OrchState :=
  let s1 := { s with isAISpeaking := true, currentState := AppMode.speaking,
                     liveTurn := some f.turn }
  let s2 := playAudio f s1
  let fireAt : ℚ := now + ((f.bytes : ℚ) / 2) / OUTPUT_SAMPLE_RATE * 1000 + 100
  { s2 with playbackTimeoutAt := some fireAt }

/-- The body of the `setTimeout` callback armed by `onAudioResponse`:
clear the AI-speaking flag and fall back to Listening when the session
is still active and still in Speaking. -/
def playbackTimeoutFire (s : OrchState) : OrchState :=
  let s1 := { s with isAISpeaking := false, playbackTimeoutAt := none }
  if s1.isSessionActive ∧ s1.currentState = AppMode.speaking then
    { s1 with currentState := AppMode.listening }
  else s1

/-- Orchestrator-level events. -/
inductive OrchEvent where
  | audioResponse (f : Frame) (now : ℚ)
  | speechStartEv
  | playbackEnded
  | timeoutFire
deriving Repr, DecidableEq

/-- One orchestrator step. -/
def ostep (s : OrchState) : OrchEvent → OrchState
  | .audioResponse f now => onAudioResponse f now s
  | .speechStartEv => onSpeechStart s
  | .playbackEnded => processPlaybackQueue s
  | .timeoutFire => playbackTimeoutFire s

/-- State after a list of orchestrator events. -/
def orun (s : OrchState) : List OrchEvent → OrchState
  | [] => s
  | e :: rest => orun (ostep s e) rest

/-- The orchestrator at the start of a live session (Listening, nothing
queued, no AI turn in flight). -/
def initOrch : OrchState :=
  { currentState := AppMode.listening, isSessionActive := true,
    isUserSpeaking := false, isAISpeaking := false, playbackTimeoutAt := none,
    playbackQueue := [], isPlaying := false, liveTurn := none,
    cancelledTurns := [], rendered := [], renderedAfterCancel := [] }

/-- Trace refuting the no-superseded-frame-rendered part of C1: an AI
fragment of turn 0 arrives and plays, the user barges in (turn 0 is
superseded and the queue flushed), then a late fragment of the same
turn 0 arrives — and is rendered. -/
def cexTrace : List OrchEvent :=
  [.audioResponse ⟨0, 48000⟩ 0, .speechStartEv, .audioResponse ⟨0, 4800⟩ 500]

/-- C1 (counterexample): the code has no turn-generation tagging, so an
audio frame of the superseded turn that arrives after the interruption
flush IS rendered: after `cexTrace` the ghost list of frames rendered
while their turn was already cancelled is non-empty, containing exactly
the late fragment of the superseded turn 0. -/
theorem orch_interruption_claim_counterexample :
    (orun initOrch cexTrace).renderedAfterCancel = [⟨0, 4800⟩]
  ∧ (orun initOrch cexTrace).renderedAfterCancel ≠ ([] : List Frame) := by
  constructor <;>
    norm_num [orun, ostep, cexTrace, initOrch, onAudioResponse, onSpeechStart,
      handleInterruption, stopPlayback, playAudio, processPlaybackQueue]

/-- C1 (amended): when `onSpeechStart` fires while the AI-speaking flag
is set (the state the orchestrator holds while in Speaking), the
orchestrator flushes the playback queue (empty immediately after),
cancels the scheduled turn-finished timer, clears the AI-speaking flag
and transitions to Listening — but frames carry no turn-generation tag,
so a fragment of the superseded turn arriving after the flush is played
rather than discarded. -/
theorem orch_interruption_amended (s : OrchState) (h : s.isAISpeaking = true) :
    (ostep s OrchEvent.speechStartEv).playbackQueue = []
  ∧ (ostep s OrchEvent.speechStartEv).playbackTimeoutAt = none
  ∧ (ostep s OrchEvent.speechStartEv).isAISpeaking = false
  ∧ (ostep s OrchEvent.speechStartEv).currentState = AppMode.listening := by
  rcases hl : s.liveTurn with _ | t <;>
    simp [ostep, onSpeechStart, handleInterruption, stopPlayback, h, hl]

/-- Witness for `orch_interruption_amended` at a concrete state with
the AI-speaking flag set. -/
theorem orch_interruption_amended_witness :
    (ostep { initOrch with isAISpeaking := true }
        OrchEvent.speechStartEv).playbackQueue = []
  ∧ (ostep { initOrch with isAISpeaking := true }
        OrchEvent.speechStartEv).playbackTimeoutAt = none
  ∧ (ostep { initOrch with isAISpeaking := true }
        OrchEvent.speechStartEv).isAISpeaking = false
  ∧ (ostep { initOrch with isAISpeaking := true }
        OrchEvent.speechStartEv).currentState = AppMode.listening :=
  orch_interruption_amended { initOrch with isAISpeaking := true } rfl

/-- The C6 scenario: three fragments of 24000 samples (48000 bytes)
each, 72000 samples in total, all arriving at t = 0. -/
def c6Trace : List OrchEvent :=
  [.audioResponse ⟨0, 48000⟩ 0, .audioResponse ⟨0, 48000⟩ 0,
   .audioResponse ⟨0, 48000⟩ 0]

/-- C6 (counterexample): after three fragments totalling 72000 samples
at 24 kHz arriving together, the claim predicts a fallback timer at
about total/rate = 3000 ms; the code arms it at 1100 ms — only the last
fragment's duration (1000 ms) plus the fixed 100 ms margin — more than
500 ms away from the claimed estimate. -/
theorem orch_completion_estimate_counterexample :
    (orun initOrch c6Trace).playbackTimeoutAt = some 1100
  ∧ ((72000 : ℚ) / OUTPUT_SAMPLE_RATE) * 1000 = 3000
  ∧ (1100 : ℚ) < 3000 - 500 := by
  refine ⟨?_, by norm_num [OUTPUT_SAMPLE_RATE], by norm_num⟩
  norm_num [orun, ostep, c6Trace, initOrch, onAudioResponse, playAudio,
    processPlaybackQueue, OUTPUT_SAMPLE_RATE]

/-- C6 (amended): each arriving audio fragment cancels any previously
armed timer and re-arms the fallback return-to-Listening timer to fire
`(byteLength/2) / outputSampleRate * 1000 + 100` ms after that
fragment's own arrival; the estimate uses only the most recent
fragment, never the total buffered sample count, so back-to-back
fragments schedule the return roughly one fragment-length after the
last arrival. -/
theorem orch_completion_estimate_amended (s : OrchState) (f : Frame) (now : ℚ) :
    (ostep s (OrchEvent.audioResponse f now)).playbackTimeoutAt
      = some (now + ((f.bytes : ℚ) / 2) / OUTPUT_SAMPLE_RATE * 1000 + 100)
  ∧ (ostep s (OrchEvent.audioResponse f now)).isAISpeaking = true
  ∧ (ostep s (OrchEvent.audioResponse f now)).currentState = AppMode.speaking := by
  refine ⟨by simp [ostep, onAudioResponse], ?_, ?_⟩ <;>
    simp only [ostep, onAudioResponse, playAudio, processPlaybackQueue] <;>
    split_ifs <;>
    rcases hq : s.playbackQueue ++ [f] with _ | ⟨a, rest⟩ <;> simp_all

end Orch
